import Mathlib

/-!
Shallow embedding of the finance library (Black-Scholes pricing, Greeks and
Newton-Raphson implied-volatility solver) over the real numbers, together
with theorems settling the specification claims.  Go float64 arithmetic is
modelled by exact real arithmetic; the standard-library functions math.Log,
math.Exp, math.Sqrt and math.Erf are modelled by their mathematical
counterparts, with the error function defined by its Gaussian integral.
-/

open MeasureTheory Set

namespace Finance

/-- Option type, can be either Call or Put. -/
inductive OptionType : Type
  | Call : OptionType
  | Put : OptionType
deriving DecidableEq

export OptionType (Call Put)

/-- Option represents an option contract. -/
structure Option : Type where
  Price : ℝ
  Strike : ℝ
  DaysToExpiration : ℝ
  RiskFreeRate : ℝ
  UnderlyingPrice : ℝ
  OptionType : OptionType

/-- The Gaussian kernel exp(-t^2), the integrand of the error function. -/
noncomputable def gaussKernel (t : ℝ) : ℝ :=
  Real.exp (-(t ^ 2))

/-- The error function, modelling Go's math.Erf. -/
noncomputable def erf (x : ℝ) : ℝ :=
  2 / Real.pi.sqrt * ∫ t in (0:ℝ)..x, gaussKernel t

/-- Phi calculates the cumulative distribution function of the standard
normal distribution (source: 0.5 * (1 + math.Erf(x / math.Sqrt2))). -/
noncomputable def Phi (x : ℝ) : ℝ :=
  0.5 * (1 + erf (x / Real.sqrt 2))

/-- The d1 expression computed inline in BlackScholesOptionPrice (line 52),
lifted to a definition. -/
noncomputable def priceD1 (option : Option) (volatility : ℝ) : ℝ :=
  (Real.log (option.UnderlyingPrice / option.Strike) +
      (option.RiskFreeRate + 0.5 * volatility ^ 2) * (option.DaysToExpiration / 365)) /
    (volatility * Real.sqrt (option.DaysToExpiration / 365))

/-- BlackScholesOptionPrice calculates the Black-Scholes option price. -/
noncomputable def BlackScholesOptionPrice (option : Option) (volatility : ℝ) : ℝ :=
  let timeToExpiration := option.DaysToExpiration / 365
  let d1 := priceD1 option volatility
  let d2 := d1 - volatility * Real.sqrt timeToExpiration
  if option.OptionType = Call then
    option.UnderlyingPrice * Phi d1 -
      option.Strike * Real.exp (-option.RiskFreeRate * timeToExpiration) * Phi d2
  else
    option.Strike * Real.exp (-option.RiskFreeRate * timeToExpiration) * Phi (-d2) -
      option.UnderlyingPrice * Phi (-d1)

/-- The d1 expression computed inline in BlackScholesVega (line 70),
lifted to a definition. -/
noncomputable def vegaD1 (option : Option) (volatility : ℝ) : ℝ :=
  (Real.log (option.UnderlyingPrice / option.Strike) +
      (option.RiskFreeRate + 0.5 * volatility ^ 2) * (option.DaysToExpiration / 365)) /
    (volatility * Real.sqrt (option.DaysToExpiration / 365))

/-- BlackScholesVega calculates the vega of Black-Scholes option price. -/
noncomputable def BlackScholesVega (option : Option) (volatility : ℝ) : ℝ :=
  let timeToExpiration := option.DaysToExpiration / 365
  let d1 := vegaD1 option volatility
  option.UnderlyingPrice * Real.sqrt timeToExpiration * Real.exp (-0.5 * d1 * d1) /
    Real.sqrt (2 * Real.pi)

/-- NormalDistributionDerivative calculates the derivative of the standard
normal cumulative distribution function. -/
noncomputable def NormalDistributionDerivative (x : ℝ) : ℝ :=
  Real.exp (-0.5 * x ^ 2) / Real.sqrt (2 * Real.pi)

/-- The d1 expression computed inline in BlackScholesGamma (line 77),
lifted to a definition. -/
noncomputable def gammaD1 (option : Option) (vol : ℝ) : ℝ :=
  (Real.log (option.UnderlyingPrice / option.Strike) +
      (option.RiskFreeRate + 0.5 * vol ^ 2) * (option.DaysToExpiration / 365)) /
    (vol * Real.sqrt (option.DaysToExpiration / 365))

/-- BlackScholesGamma computes the gamma of an option. -/
noncomputable def BlackScholesGamma (option : Option) (vol : ℝ) : ℝ :=
  NormalDistributionDerivative (gammaD1 option vol) /
    (option.UnderlyingPrice * vol * Real.sqrt (option.DaysToExpiration / 365))

/-- The d1 expression computed inline in BlackScholesDelta (line 92),
lifted to a definition (note the source writes volatility*volatility/2
here rather than 0.5*Pow(volatility, 2)). -/
noncomputable def deltaD1 (option : Option) (volatility : ℝ) : ℝ :=
  (Real.log (option.UnderlyingPrice / option.Strike) +
      (option.RiskFreeRate + volatility * volatility / 2) * (option.DaysToExpiration / 365)) /
    (volatility * Real.sqrt (option.DaysToExpiration / 365))

/-- BlackScholesDelta computes the delta of an option. -/
noncomputable def BlackScholesDelta (option : Option) (volatility : ℝ) : ℝ :=
  if option.OptionType = Call then Phi (deltaD1 option volatility)
  else Phi (deltaD1 option volatility) - 1

/-- The body of the Newton-Raphson loop of BlackScholesImpliedVolatility,
with the remaining iteration count as fuel.  Each iteration computes the
model price at the current iterate, stops when the absolute price error is
below 0.0001, and otherwise applies the unclamped Newton update. -/
noncomputable def newtonIterate (option : Option) : ℕ → ℝ → ℝ
  | 0, currentVolatility => currentVolatility
  | n + 1, currentVolatility =>
    let price := BlackScholesOptionPrice option currentVolatility
    if |price - option.Price| < 0.0001 then currentVolatility
    else
      newtonIterate option n
        (currentVolatility - (price - option.Price) / BlackScholesVega option currentVolatility)

/-- BlackScholesImpliedVolatility computes implied volatility using the
Newton-Raphson method: initial guess 0.2, at most 100 iterations. -/
noncomputable def BlackScholesImpliedVolatility (option : Option) : ℝ :=
  newtonIterate option 100 0.2

/-- Upper tail of the (unnormalised) Gaussian integral. -/
noncomputable def tailGauss (y : ℝ) : ℝ := ∫ t in Ioi y, gaussKernel t

lemma gaussKernel_pos (t : ℝ) : 0 < gaussKernel t := Real.exp_pos _

lemma integrableOn_gauss (s : Set ℝ) : IntegrableOn gaussKernel s := by
  have h := integrable_exp_neg_mul_sq (b := 1) one_pos
  have he : gaussKernel = fun t : ℝ => Real.exp (-1 * t ^ 2) := by
    funext t
    rw [gaussKernel, neg_mul, one_mul]
  rw [he]
  exact h.integrableOn

lemma tailGauss_zero : tailGauss 0 = Real.sqrt Real.pi / 2 := by
  have h := integral_gaussian_Ioi 1
  simpa [tailGauss, gaussKernel] using h

lemma tailGauss_pos (y : ℝ) : 0 < tailGauss y := by
  rw [tailGauss, setIntegral_pos_iff_support_of_nonneg_ae
    (Filter.Eventually.of_forall fun t => (gaussKernel_pos t).le) (integrableOn_gauss _)]
  have hsupp : Function.support gaussKernel = Set.univ := by
    ext t
    simpa [gaussKernel] using Real.exp_ne_zero _
  rw [hsupp, Set.univ_inter, Real.volume_Ioi]
  exact ENNReal.zero_lt_top

lemma tailGauss_antitone {a b : ℝ} (h : a ≤ b) : tailGauss b ≤ tailGauss a :=
  setIntegral_mono_set (integrableOn_gauss _)
    (Filter.Eventually.of_forall fun t => (gaussKernel_pos t).le)
    (HasSubset.Subset.eventuallyLE (Ioi_subset_Ioi h))

lemma intervalGauss_add_tailGauss (y : ℝ) :
    (∫ t in (0:ℝ)..y, gaussKernel t) + tailGauss y = tailGauss 0 := by
  rcases le_or_lt 0 y with hy | hy
  · rw [intervalIntegral.integral_of_le hy, tailGauss, tailGauss,
      ← Ioc_union_Ioi_eq_Ioi hy,
      setIntegral_union (Ioc_disjoint_Ioi le_rfl) measurableSet_Ioi
        (integrableOn_gauss _) (integrableOn_gauss _)]
  · have hsplit : tailGauss y
        = (∫ t in Ioc y 0, gaussKernel t) + tailGauss 0 := by
      rw [tailGauss, tailGauss, ← Ioc_union_Ioi_eq_Ioi hy.le,
        setIntegral_union (Ioc_disjoint_Ioi le_rfl) measurableSet_Ioi
          (integrableOn_gauss _) (integrableOn_gauss _)]
    rw [intervalIntegral.integral_of_ge hy.le, hsplit]
    ring

lemma integral_exp_neg_mul_Ioi {c : ℝ} (a : ℝ) (hc : 0 < c) :
    ∫ t in Ioi a, Real.exp (-c * t) = Real.exp (-c * a) / c := by
  have hderiv : ∀ x ∈ Ioi a,
      HasDerivAt (fun t => -Real.exp (-c * t) / c) (Real.exp (-c * x)) x := by
    intro x _
    have h1 : HasDerivAt (fun t : ℝ => -c * t) (-c) x := by
      simpa using (hasDerivAt_id x).const_mul (-c)
    have h3 := (h1.exp.neg).div_const c
    convert h3 using 1
    field_simp
  have hcont : ContinuousWithinAt (fun t => -Real.exp (-c * t) / c) (Ici a) a := by
    apply Continuous.continuousWithinAt
    exact ((Real.continuous_exp.comp (continuous_const.mul continuous_id)).neg).div_const c
  have htend : Filter.Tendsto (fun t => -Real.exp (-c * t) / c) Filter.atTop (nhds 0) := by
    have h0 : Filter.Tendsto (fun t : ℝ => Real.exp (-c * t)) Filter.atTop (nhds 0) :=
      Real.tendsto_exp_atBot.comp
        (Filter.tendsto_id.const_mul_atTop_of_neg (neg_neg_iff_pos.2 hc))
    have h1 := (h0.neg).div_const c
    simpa using h1
  have h := integral_Ioi_of_hasDerivAt_of_tendsto hcont hderiv
    (exp_neg_integrableOn_Ioi a hc) htend
  rw [h]
  field_simp

lemma tailGauss_le {y : ℝ} (hy : 0 < y) :
    tailGauss y ≤ Real.exp (-y ^ 2) / (2 * y) := by
  have hpt : ∀ t ∈ Ioi y,
      gaussKernel t ≤ Real.exp (y ^ 2) * Real.exp (-(2 * y) * t) := by
    intro t _
    rw [gaussKernel, ← Real.exp_add]
    apply Real.exp_le_exp.mpr
    nlinarith [sq_nonneg (t - y)]
  have hInt2 : IntegrableOn (fun t => Real.exp (y ^ 2) * Real.exp (-(2 * y) * t)) (Ioi y) :=
    (exp_neg_integrableOn_Ioi y (by positivity)).const_mul _
  have h1 : tailGauss y ≤ ∫ t in Ioi y, Real.exp (y ^ 2) * Real.exp (-(2 * y) * t) :=
    setIntegral_mono_on (integrableOn_gauss _) hInt2 measurableSet_Ioi hpt
  have h2 : (∫ t in Ioi y, Real.exp (y ^ 2) * Real.exp (-(2 * y) * t))
      = Real.exp (y ^ 2) * (Real.exp (-(2 * y) * y) / (2 * y)) := by
    rw [integral_mul_left, integral_exp_neg_mul_Ioi y (by positivity)]
  have h3 : Real.exp (y ^ 2) * (Real.exp (-(2 * y) * y) / (2 * y))
      = Real.exp (-y ^ 2) / (2 * y) := by
    have hprod : Real.exp (y ^ 2) * Real.exp (-(2 * y) * y) = Real.exp (-y ^ 2) := by
      rw [← Real.exp_add]
      ring_nf
    rw [← hprod]
    ring
  rw [h2, h3] at h1
  exact h1

lemma gaussKernel_even (t : ℝ) : gaussKernel (-t) = gaussKernel t := by
  rw [gaussKernel, gaussKernel, neg_sq]

lemma erf_neg (x : ℝ) : erf (-x) = -erf x := by
  rw [erf, erf]
  have h1 : (∫ t in (0:ℝ)..(-x), gaussKernel t)
      = ∫ t in (0:ℝ)..(-x), gaussKernel (-t) := by
    simp [gaussKernel_even]
  have h2 : (∫ t in (0:ℝ)..(-x), gaussKernel (-t))
      = ∫ t in x..(0:ℝ), gaussKernel t := by
    have h := intervalIntegral.integral_comp_neg (a := (0:ℝ)) (b := -x) gaussKernel
    simpa using h
  rw [h1, h2, intervalIntegral.integral_symm]
  ring

lemma one_sub_Phi (x : ℝ) :
    1 - Phi x = (1 / Real.sqrt Real.pi) * tailGauss (x / Real.sqrt 2) := by
  have hpi : (0:ℝ) < Real.sqrt Real.pi := Real.sqrt_pos.mpr Real.pi_pos
  have hs := intervalGauss_add_tailGauss (x / Real.sqrt 2)
  rw [tailGauss_zero] at hs
  have hI : (∫ t in (0:ℝ)..(x / Real.sqrt 2), gaussKernel t)
      = Real.sqrt Real.pi / 2 - tailGauss (x / Real.sqrt 2) := by linarith
  rw [Phi, erf, hI]
  field_simp
  ring

lemma Phi_lt_one (x : ℝ) : Phi x < 1 := by
  have h := one_sub_Phi x
  have ht := tailGauss_pos (x / Real.sqrt 2)
  have hpi : (0:ℝ) < Real.sqrt Real.pi := Real.sqrt_pos.mpr Real.pi_pos
  have hprod : 0 < (1 / Real.sqrt Real.pi) * tailGauss (x / Real.sqrt 2) :=
    mul_pos (by positivity) ht
  linarith

lemma Phi_add_Phi_neg (x : ℝ) : Phi x + Phi (-x) = 1 := by
  rw [Phi, Phi, neg_div, erf_neg]
  ring

lemma Phi_pos (x : ℝ) : 0 < Phi x := by
  have h1 := Phi_add_Phi_neg x
  have h2 := Phi_lt_one (-x)
  linarith

lemma sqrt_two_le_three_halves : Real.sqrt 2 ≤ 3 / 2 := by
  rw [show (3 / 2 : ℝ) = Real.sqrt ((3 / 2) ^ 2) from (Real.sqrt_sq (by norm_num)).symm]
  exact Real.sqrt_le_sqrt (by norm_num)

lemma one_le_sqrt_pi : (1 : ℝ) ≤ Real.sqrt Real.pi := by
  rw [show (1 : ℝ) = Real.sqrt 1 from Real.sqrt_one.symm]
  exact Real.sqrt_le_sqrt (by linarith [Real.pi_gt_three])

lemma exp_neg_900_lt : Real.exp (-(900 : ℝ)) < 1 / 100000 := by
  have h1 : (451 : ℝ) ≤ Real.exp 450 := by
    have h := Real.add_one_le_exp (450 : ℝ)
    linarith
  have h2 : (203401 : ℝ) ≤ Real.exp 900 := by
    have hmul : Real.exp (900 : ℝ) = Real.exp 450 * Real.exp 450 := by
      rw [← Real.exp_add]
      norm_num
    nlinarith [Real.exp_pos (450 : ℝ)]
  have h3 : Real.exp (-(900 : ℝ)) = 1 / Real.exp 900 := by
    rw [Real.exp_neg]
    ring
  rw [h3, div_lt_div_iff (by positivity) (by norm_num)]
  nlinarith

lemma one_sub_Phi_le {d : ℝ} (hd : 45 ≤ d) : 1 - Phi d ≤ Real.exp (-(900 : ℝ)) := by
  rw [one_sub_Phi]
  have hsqrt2 : 0 < Real.sqrt 2 := Real.sqrt_pos.mpr (by norm_num)
  have hd0 : (0 : ℝ) ≤ d := by linarith
  have hy1 : d / (3 / 2 : ℝ) ≤ d / Real.sqrt 2 := by
    gcongr
    exact sqrt_two_le_three_halves
  have hy30 : (30 : ℝ) ≤ d / Real.sqrt 2 := by
    have : (30 : ℝ) ≤ d / (3 / 2) := by linarith
    linarith
  have htail : tailGauss (d / Real.sqrt 2) ≤ tailGauss 30 := tailGauss_antitone hy30
  have hbound : tailGauss 30 ≤ Real.exp (-(30 : ℝ) ^ 2) / (2 * 30) := tailGauss_le (by norm_num)
  have hexp : Real.exp (-(30 : ℝ) ^ 2) / (2 * 30) ≤ Real.exp (-(900 : ℝ)) := by
    rw [show (-(30 : ℝ) ^ 2) = -(900 : ℝ) by norm_num]
    have := Real.exp_pos (-(900 : ℝ))
    linarith
  have htp := tailGauss_pos (d / Real.sqrt 2)
  have hpi := one_le_sqrt_pi
  calc (1 / Real.sqrt Real.pi) * tailGauss (d / Real.sqrt 2)
      ≤ 1 * tailGauss (d / Real.sqrt 2) := by
        apply mul_le_mul_of_nonneg_right _ htp.le
        rw [div_le_one (by linarith)]
        linarith
    _ = tailGauss (d / Real.sqrt 2) := one_mul _
    _ ≤ tailGauss 30 := htail
    _ ≤ Real.exp (-(30 : ℝ) ^ 2) / (2 * 30) := hbound
    _ ≤ Real.exp (-(900 : ℝ)) := hexp

/-- The deep-in-the-money, short-expiry contract used to refute the
round-trip claim: underlying 2, strike 1, 0.0365 days to expiry, zero
rate, Call. -/
noncomputable def oDeep : Option :=
  { Price := 0
    Strike := 1
    DaysToExpiration := 0.0365
    RiskFreeRate := 0
    UnderlyingPrice := 2
    OptionType := Call }

lemma sqrtT_oDeep : Real.sqrt ((0.0365 : ℝ) / 365) = 1 / 100 := by
  rw [show ((0.0365 : ℝ) / 365) = (1 / 100) ^ 2 by norm_num, Real.sqrt_sq (by norm_num)]

lemma priceD1_oDeep (σ : ℝ) :
    priceD1 oDeep σ = (Real.log 2 + 0.5 * σ ^ 2 * (1 / 10000)) / (σ * (1 / 100)) := by
  rw [priceD1]
  show (Real.log (2 / 1) + (0 + 0.5 * σ ^ 2) * ((0.0365 : ℝ) / 365)) /
      (σ * Real.sqrt ((0.0365 : ℝ) / 365)) = _
  rw [sqrtT_oDeep]
  norm_num

lemma price_oDeep (σ : ℝ) :
    BlackScholesOptionPrice oDeep σ
      = 2 * Phi (priceD1 oDeep σ) - Phi (priceD1 oDeep σ - σ * (1 / 100)) := by
  rw [BlackScholesOptionPrice]
  show (if oDeep.OptionType = Call then
      oDeep.UnderlyingPrice * Phi (priceD1 oDeep σ) -
        oDeep.Strike * Real.exp (-oDeep.RiskFreeRate * (oDeep.DaysToExpiration / 365)) *
          Phi (priceD1 oDeep σ - σ * Real.sqrt (oDeep.DaysToExpiration / 365))
    else _) = _
  have hco : oDeep.OptionType = Call := rfl
  rw [if_pos hco]
  show (2 : ℝ) * Phi (priceD1 oDeep σ) -
      1 * Real.exp (-(0 : ℝ) * ((0.0365 : ℝ) / 365)) *
        Phi (priceD1 oDeep σ - σ * Real.sqrt ((0.0365 : ℝ) / 365)) = _
  rw [sqrtT_oDeep]
  norm_num

lemma d1_oDeep_large {σ : ℝ} (h1 : 1 / 5 ≤ σ) (h2 : σ ≤ 3 / 2) :
    45 ≤ priceD1 oDeep σ - σ * (1 / 100) ∧ 45 ≤ priceD1 oDeep σ := by
  rw [priceD1_oDeep]
  have hσ : 0 < σ := by linarith
  have hlog := Real.log_two_gt_d9
  have hnum : 0.6931 + 0.5 * σ ^ 2 * (1 / 10000) ≤ Real.log 2 + 0.5 * σ ^ 2 * (1 / 10000) := by
    nlinarith
  have hkey : (45 + σ * (1 / 100)) * (σ * (1 / 100)) ≤ Real.log 2 + 0.5 * σ ^ 2 * (1 / 10000) := by
    nlinarith
  have hd : 45 + σ * (1 / 100) ≤ (Real.log 2 + 0.5 * σ ^ 2 * (1 / 10000)) / (σ * (1 / 100)) := by
    rw [le_div_iff (by positivity)]
    exact hkey
  constructor
  · linarith
  · have : 0 < σ * (1 / 100) := by positivity
    linarith

lemma price_diff_oDeep_small :
    |BlackScholesOptionPrice oDeep 0.2 - BlackScholesOptionPrice oDeep 1.5| < 0.0001 := by
  have e0 : (0.2 : ℝ) = 1 / 5 := by norm_num
  have e1 : (1.5 : ℝ) = 3 / 2 := by norm_num
  have hA := d1_oDeep_large (σ := 0.2) (by norm_num) (by norm_num)
  have hB := d1_oDeep_large (σ := 1.5) (by norm_num) (by norm_num)
  have bA1 := one_sub_Phi_le hA.2
  have bA2 := one_sub_Phi_le hA.1
  have bB1 := one_sub_Phi_le hB.2
  have bB2 := one_sub_Phi_le hB.1
  have uA1 := Phi_lt_one (priceD1 oDeep 0.2)
  have uA2 := Phi_lt_one (priceD1 oDeep 0.2 - 0.2 * (1 / 100))
  have uB1 := Phi_lt_one (priceD1 oDeep 1.5)
  have uB2 := Phi_lt_one (priceD1 oDeep 1.5 - 1.5 * (1 / 100))
  have hexp := exp_neg_900_lt
  rw [price_oDeep, price_oDeep, abs_lt]
  constructor <;> nlinarith

/-- If the price error at the current iterate is already below the
tolerance, an iteration of the Newton-Raphson loop returns the iterate. -/
lemma newtonIterate_one_step (o : Option) (n : ℕ) (v : ℝ)
    (h : |BlackScholesOptionPrice o v - o.Price| < 0.0001) :
    newtonIterate o (n + 1) v = v := by
  show (if |BlackScholesOptionPrice o v - o.Price| < 0.0001 then v
    else newtonIterate o n
      (v - (BlackScholesOptionPrice o v - o.Price) / BlackScholesVega o v)) = v
  exact if_pos h

/-- The spec section 4.4 reference Newton-Raphson loop, modelled from the
spec pseudocode: explicit target price, price and vega computed each
iteration, tolerance 0.0001, unclamped update, fuelled by the remaining
iteration count. -/
noncomputable def specNewtonLoop (option : Option) (targetPrice : ℝ) : ℕ → ℝ → ℝ
  | 0, currentVolatility => currentVolatility
  | n + 1, currentVolatility =>
    let price := BlackScholesOptionPrice option currentVolatility
    let vegaValue := BlackScholesVega option currentVolatility
    if |price - targetPrice| < 0.0001 then currentVolatility
    else specNewtonLoop option targetPrice n
      (currentVolatility - (price - targetPrice) / vegaValue)

lemma newtonIterate_eq_specNewtonLoop (o : Option) (n : ℕ) (v : ℝ) :
    newtonIterate o n v = specNewtonLoop o o.Price n v := by
  induction n generalizing v with
  | zero => rfl
  | succ n ih =>
    show (if |BlackScholesOptionPrice o v - o.Price| < 0.0001 then v
        else newtonIterate o n
          (v - (BlackScholesOptionPrice o v - o.Price) / BlackScholesVega o v))
      = (if |BlackScholesOptionPrice o v - o.Price| < 0.0001 then v
        else specNewtonLoop o o.Price n
          (v - (BlackScholesOptionPrice o v - o.Price) / BlackScholesVega o v))
    split
    · rfl
    · exact ih _

/-- The spec section 4.2 d1 formula, written from the spec text. -/
noncomputable def specD1 (option : Option) (σ : ℝ) : ℝ :=
  (Real.log (option.UnderlyingPrice / option.Strike) +
      (option.RiskFreeRate + σ ^ 2 / 2) * (option.DaysToExpiration / 365)) /
    (σ * Real.sqrt (option.DaysToExpiration / 365))

/-- The spec section 4.2 d2 formula, written from the spec text. -/
noncomputable def specD2 (option : Option) (σ : ℝ) : ℝ :=
  specD1 option σ - σ * Real.sqrt (option.DaysToExpiration / 365)

/-- The spec section 4.2 pricing formula, written from the spec text. -/
noncomputable def specOptionPrice (option : Option) (σ : ℝ) : ℝ :=
  match option.OptionType with
  | Call =>
    option.UnderlyingPrice * Phi (specD1 option σ) -
      option.Strike * Real.exp (-option.RiskFreeRate * (option.DaysToExpiration / 365)) *
        Phi (specD2 option σ)
  | Put =>
    option.Strike * Real.exp (-option.RiskFreeRate * (option.DaysToExpiration / 365)) *
        Phi (-specD2 option σ) -
      option.UnderlyingPrice * Phi (-specD1 option σ)

/-- A concrete valid contract (the one used by the repository's tests). -/
noncomputable def oTest : Option :=
  { Price := 10
    Strike := 100
    DaysToExpiration := 30
    RiskFreeRate := 0.05
    UnderlyingPrice := 100
    OptionType := Call }

/-- Claim C1: for every contract with positive strike, underlying price and
days to expiration and every positive volatility, BlackScholesOptionPrice
computes exactly the spec formula: T = daysToExpiration/365,
d1 = (ln(S/K) + (r + sigma^2/2)T)/(sigma sqrt T), d2 = d1 - sigma sqrt T,
and returns S Phi(d1) - K exp(-rT) Phi(d2) for a Call and
K exp(-rT) Phi(-d2) - S Phi(-d1) for a Put, with no other control flow. -/
theorem optionPrice_eq_specOptionPrice (o : Option) (σ : ℝ)
    (hK : 0 < o.Strike) (hS : 0 < o.UnderlyingPrice)
    (hT : 0 < o.DaysToExpiration) (hσ : 0 < σ) :
    BlackScholesOptionPrice o σ = specOptionPrice o σ := by
  have hd : priceD1 o σ = specD1 o σ := by
    rw [priceD1, specD1]
    ring
  rw [BlackScholesOptionPrice, specOptionPrice]
  cases hc : o.OptionType with
  | Call =>
    rw [hd, if_pos rfl]
    rfl
  | Put =>
    rw [hd, if_neg (by simp)]
    rfl

/-- Witness for claim C1 at the repository's test contract. -/
theorem optionPrice_eq_specOptionPrice_witness :
    0 < oTest.Strike ∧ 0 < oTest.UnderlyingPrice ∧ 0 < oTest.DaysToExpiration ∧
      (0 : ℝ) < 0.2 ∧
      BlackScholesOptionPrice oTest 0.2 = specOptionPrice oTest 0.2 := by
  have hK : (0 : ℝ) < oTest.Strike := by norm_num [oTest]
  have hS : (0 : ℝ) < oTest.UnderlyingPrice := by norm_num [oTest]
  have hT : (0 : ℝ) < oTest.DaysToExpiration := by norm_num [oTest]
  have hσ : (0 : ℝ) < 0.2 := by norm_num
  exact ⟨hK, hS, hT, hσ, optionPrice_eq_specOptionPrice oTest 0.2 hK hS hT hσ⟩

/-- Claim C2: BlackScholesImpliedVolatility performs exactly the reference
Newton-Raphson loop of spec section 4.4: iterate starts at 0.2, at most 100
iterations, each computing the model price and vega at the iterate,
stopping when the absolute price error is below 0.0001, otherwise applying
the unclamped update iterate - (price - target)/vega, and returning the
last iterate with no non-convergence signal. -/
theorem impliedVolatility_eq_specNewtonLoop (o : Option) :
    BlackScholesImpliedVolatility o = specNewtonLoop o o.Price 100 0.2 :=
  newtonIterate_eq_specNewtonLoop o 100 0.2

/-- Counterexample for claim C3: for the deep-in-the-money short-expiry
contract oDeep and original volatility 1.5 (inside [0.05, 1.5]), pricing at
1.5 and then inverting does not recover 1.5 within 1e-4: both sigma = 0.2
and sigma = 1.5 price within 1e-4 of each other, so the solver stops at its
initial guess 0.2. -/
theorem roundtrip_not_recovering_counterexample :
    ¬ (|BlackScholesImpliedVolatility { oDeep with Price := BlackScholesOptionPrice oDeep 1.5 }
        - 1.5| ≤ 0.0001) := by
  intro hcontra
  have hP : BlackScholesOptionPrice
      { oDeep with Price := BlackScholesOptionPrice oDeep 1.5 } 0.2
      = BlackScholesOptionPrice oDeep 0.2 := rfl
  have hPr : ({ oDeep with Price := BlackScholesOptionPrice oDeep 1.5 } : Option).Price
      = BlackScholesOptionPrice oDeep 1.5 := rfl
  have hcond : |BlackScholesOptionPrice
      { oDeep with Price := BlackScholesOptionPrice oDeep 1.5 } 0.2
      - ({ oDeep with Price := BlackScholesOptionPrice oDeep 1.5 } : Option).Price| < 0.0001 := by
    rw [hP, hPr]
    exact price_diff_oDeep_small
  have hiv : BlackScholesImpliedVolatility
      { oDeep with Price := BlackScholesOptionPrice oDeep 1.5 } = 0.2 := by
    show newtonIterate { oDeep with Price := BlackScholesOptionPrice oDeep 1.5 } (99 + 1) 0.2
      = 0.2
    exact newtonIterate_one_step _ 99 0.2 hcond
  rw [hiv, abs_le] at hcontra
  have h1 := hcontra.1
  norm_num at h1

/-- Amended claim C3: the round-trip property holds at the solver's initial
guess: pricing any contract at volatility 0.2 and feeding the price back
into BlackScholesImpliedVolatility returns 0.2 exactly (hence within 1e-4);
for other volatilities in [0.05, 1.5] recovery can fail, as the
counterexample shows. -/
theorem roundtrip_recovers_initial_guess (o : Option) :
    BlackScholesImpliedVolatility { o with Price := BlackScholesOptionPrice o 0.2 } = 0.2 := by
  have h1 : BlackScholesOptionPrice { o with Price := BlackScholesOptionPrice o 0.2 } 0.2
      = BlackScholesOptionPrice o 0.2 := rfl
  have h2 : ({ o with Price := BlackScholesOptionPrice o 0.2 } : Option).Price
      = BlackScholesOptionPrice o 0.2 := rfl
  have hcond : |BlackScholesOptionPrice { o with Price := BlackScholesOptionPrice o 0.2 } 0.2
      - ({ o with Price := BlackScholesOptionPrice o 0.2 } : Option).Price| < 0.0001 := by
    rw [h1, h2, sub_self, abs_zero]
    norm_num
  show newtonIterate { o with Price := BlackScholesOptionPrice o 0.2 } (99 + 1) 0.2 = 0.2
  exact newtonIterate_one_step _ 99 0.2 hcond

/-- Claim C4: put-call parity: for every contract with positive strike,
underlying and days to expiration and positive volatility, the call price
minus the put price (same parameters, only the option type differing)
equals S - K exp(-rT) within 1e-6, where T = daysToExpiration/365. -/
theorem putCallParity (o : Option) (σ : ℝ)
    (hK : 0 < o.Strike) (hS : 0 < o.UnderlyingPrice)
    (hT : 0 < o.DaysToExpiration) (hσ : 0 < σ) :
    |BlackScholesOptionPrice { o with OptionType := Call } σ -
        BlackScholesOptionPrice { o with OptionType := Put } σ -
        (o.UnderlyingPrice -
          o.Strike * Real.exp (-o.RiskFreeRate * (o.DaysToExpiration / 365)))| ≤ 1e-6 := by
  have hcall : BlackScholesOptionPrice { o with OptionType := Call } σ
      = o.UnderlyingPrice * Phi (priceD1 o σ) -
        o.Strike * Real.exp (-o.RiskFreeRate * (o.DaysToExpiration / 365)) *
          Phi (priceD1 o σ - σ * Real.sqrt (o.DaysToExpiration / 365)) := by
    rw [BlackScholesOptionPrice]
    exact if_pos rfl
  have hput : BlackScholesOptionPrice { o with OptionType := Put } σ
      = o.Strike * Real.exp (-o.RiskFreeRate * (o.DaysToExpiration / 365)) *
          Phi (-(priceD1 o σ - σ * Real.sqrt (o.DaysToExpiration / 365))) -
        o.UnderlyingPrice * Phi (-priceD1 o σ) := by
    rw [BlackScholesOptionPrice]
    exact if_neg (by simp)
  have h1 := Phi_add_Phi_neg (priceD1 o σ)
  have h2 := Phi_add_Phi_neg (priceD1 o σ - σ * Real.sqrt (o.DaysToExpiration / 365))
  rw [hcall, hput]
  have hkey : o.UnderlyingPrice * Phi (priceD1 o σ) -
      o.Strike * Real.exp (-o.RiskFreeRate * (o.DaysToExpiration / 365)) *
        Phi (priceD1 o σ - σ * Real.sqrt (o.DaysToExpiration / 365)) -
      (o.Strike * Real.exp (-o.RiskFreeRate * (o.DaysToExpiration / 365)) *
          Phi (-(priceD1 o σ - σ * Real.sqrt (o.DaysToExpiration / 365))) -
        o.UnderlyingPrice * Phi (-priceD1 o σ)) -
      (o.UnderlyingPrice -
        o.Strike * Real.exp (-o.RiskFreeRate * (o.DaysToExpiration / 365)))
      = o.UnderlyingPrice * (Phi (priceD1 o σ) + Phi (-priceD1 o σ) - 1) -
        o.Strike * Real.exp (-o.RiskFreeRate * (o.DaysToExpiration / 365)) *
          (Phi (priceD1 o σ - σ * Real.sqrt (o.DaysToExpiration / 365)) +
            Phi (-(priceD1 o σ - σ * Real.sqrt (o.DaysToExpiration / 365))) - 1) := by
    ring
  rw [hkey]
  have hz1 : Phi (priceD1 o σ) + Phi (-priceD1 o σ) - 1 = 0 := by linarith
  have hz2 : Phi (priceD1 o σ - σ * Real.sqrt (o.DaysToExpiration / 365)) +
      Phi (-(priceD1 o σ - σ * Real.sqrt (o.DaysToExpiration / 365))) - 1 = 0 := by linarith
  rw [hz1, hz2]
  norm_num

/-- Witness for claim C4 at the repository's test contract. -/
theorem putCallParity_witness :
    0 < oTest.Strike ∧ 0 < oTest.UnderlyingPrice ∧ 0 < oTest.DaysToExpiration ∧
      (0 : ℝ) < 0.2 ∧
      |BlackScholesOptionPrice { oTest with OptionType := Call } 0.2 -
          BlackScholesOptionPrice { oTest with OptionType := Put } 0.2 -
          (oTest.UnderlyingPrice -
            oTest.Strike *
              Real.exp (-oTest.RiskFreeRate * (oTest.DaysToExpiration / 365)))| ≤ 1e-6 := by
  have hK : (0 : ℝ) < oTest.Strike := by norm_num [oTest]
  have hS : (0 : ℝ) < oTest.UnderlyingPrice := by norm_num [oTest]
  have hT : (0 : ℝ) < oTest.DaysToExpiration := by norm_num [oTest]
  have hσ : (0 : ℝ) < 0.2 := by norm_num
  exact ⟨hK, hS, hT, hσ, putCallParity oTest 0.2 hK hS hT hσ⟩

/-- Claim C5: BlackScholesDelta returns Phi(d1) for a Call and Phi(d1) - 1
for a Put; the call delta lies in (0,1), the put delta lies in (-1,0), and
for matching parameters the call delta minus the put delta equals 1. -/
theorem deltaProperties (o : Option) (σ : ℝ)
    (hK : 0 < o.Strike) (hS : 0 < o.UnderlyingPrice)
    (hT : 0 < o.DaysToExpiration) (hσ : 0 < σ) :
    BlackScholesDelta { o with OptionType := Call } σ = Phi (deltaD1 o σ) ∧
    BlackScholesDelta { o with OptionType := Put } σ = Phi (deltaD1 o σ) - 1 ∧
    (0 < BlackScholesDelta { o with OptionType := Call } σ ∧
      BlackScholesDelta { o with OptionType := Call } σ < 1) ∧
    (-1 < BlackScholesDelta { o with OptionType := Put } σ ∧
      BlackScholesDelta { o with OptionType := Put } σ < 0) ∧
    BlackScholesDelta { o with OptionType := Call } σ -
      BlackScholesDelta { o with OptionType := Put } σ = 1 := by
  have hcall : BlackScholesDelta { o with OptionType := Call } σ = Phi (deltaD1 o σ) := by
    rw [BlackScholesDelta]
    exact if_pos rfl
  have hput : BlackScholesDelta { o with OptionType := Put } σ = Phi (deltaD1 o σ) - 1 := by
    rw [BlackScholesDelta]
    exact if_neg (by simp)
  have hpos := Phi_pos (deltaD1 o σ)
  have hlt := Phi_lt_one (deltaD1 o σ)
  have hb1 : 0 < BlackScholesDelta { o with OptionType := Call } σ := by
    rw [hcall]; linarith
  have hb2 : BlackScholesDelta { o with OptionType := Call } σ < 1 := by
    rw [hcall]; linarith
  have hb3 : -1 < BlackScholesDelta { o with OptionType := Put } σ := by
    rw [hput]; linarith
  have hb4 : BlackScholesDelta { o with OptionType := Put } σ < 0 := by
    rw [hput]; linarith
  have hb5 : BlackScholesDelta { o with OptionType := Call } σ -
      BlackScholesDelta { o with OptionType := Put } σ = 1 := by
    rw [hcall, hput]; ring
  exact ⟨hcall, hput, ⟨hb1, hb2⟩, ⟨hb3, hb4⟩, hb5⟩

/-- Witness for claim C5 at the repository's test contract. -/
theorem deltaProperties_witness :
    0 < oTest.Strike ∧ 0 < oTest.UnderlyingPrice ∧ 0 < oTest.DaysToExpiration ∧
      (0 : ℝ) < 0.2 ∧
      (0 < BlackScholesDelta { oTest with OptionType := Call } 0.2 ∧
        BlackScholesDelta { oTest with OptionType := Call } 0.2 < 1) ∧
      BlackScholesDelta { oTest with OptionType := Call } 0.2 -
        BlackScholesDelta { oTest with OptionType := Put } 0.2 = 1 := by
  have hK : (0 : ℝ) < oTest.Strike := by norm_num [oTest]
  have hS : (0 : ℝ) < oTest.UnderlyingPrice := by norm_num [oTest]
  have hT : (0 : ℝ) < oTest.DaysToExpiration := by norm_num [oTest]
  have hσ : (0 : ℝ) < 0.2 := by norm_num
  have h := deltaProperties oTest 0.2 hK hS hT hσ
  exact ⟨hK, hS, hT, hσ, h.2.2.1, h.2.2.2.2⟩

/-- Claim C6: Phi(x) equals 0.5 (1 + erf(x / sqrt 2)) and its output lies
in [0,1]; over the reals the range is in fact the open interval (0,1). -/
theorem PhiProperties (x : ℝ) :
    Phi x = 0.5 * (1 + erf (x / Real.sqrt 2)) ∧
      (0 ≤ Phi x ∧ Phi x ≤ 1) ∧ 0 < Phi x ∧ Phi x < 1 :=
  ⟨rfl, ⟨(Phi_pos x).le, (Phi_lt_one x).le⟩, Phi_pos x, Phi_lt_one x⟩

/-- Claim C7: two-run noninterference: the pure pricing functions and
Greeks ignore the contract's Price field, and vega and gamma additionally
ignore the OptionType field. -/
theorem noninterference :
    (∀ (o : Option) (p σ : ℝ),
      BlackScholesOptionPrice { o with Price := p } σ = BlackScholesOptionPrice o σ) ∧
    (∀ (o : Option) (p σ : ℝ),
      BlackScholesVega { o with Price := p } σ = BlackScholesVega o σ) ∧
    (∀ (o : Option) (p σ : ℝ),
      BlackScholesGamma { o with Price := p } σ = BlackScholesGamma o σ) ∧
    (∀ (o : Option) (p σ : ℝ),
      BlackScholesDelta { o with Price := p } σ = BlackScholesDelta o σ) ∧
    (∀ (o : Option) (ty : OptionType) (σ : ℝ),
      BlackScholesVega { o with OptionType := ty } σ = BlackScholesVega o σ) ∧
    (∀ (o : Option) (ty : OptionType) (σ : ℝ),
      BlackScholesGamma { o with OptionType := ty } σ = BlackScholesGamma o σ) :=
  by refine ⟨?_, ?_, ?_, ?_, ?_, ?_⟩ <;> intros <;> rfl

/-- Claim C8: the d1 value computed inline by BlackScholesVega,
BlackScholesGamma and BlackScholesDelta coincides, for every contract and
volatility, with the d1 computed inside BlackScholesOptionPrice. -/
theorem d1_consistency (o : Option) (σ : ℝ) :
    vegaD1 o σ = priceD1 o σ ∧ gammaD1 o σ = priceD1 o σ ∧ deltaD1 o σ = priceD1 o σ := by
  refine ⟨rfl, rfl, ?_⟩
  rw [deltaD1, priceD1]
  ring

/-- Claim C10: whenever the initial guess 0.2 already prices the contract
within the 0.0001 tolerance, BlackScholesImpliedVolatility returns exactly
0.2, with no Newton update applied. -/
theorem impliedVolatility_keeps_initial_guess (o : Option)
    (h : |BlackScholesOptionPrice o 0.2 - o.Price| < 0.0001) :
    BlackScholesImpliedVolatility o = 0.2 := by
  show newtonIterate o (99 + 1) 0.2 = 0.2
  exact newtonIterate_one_step o 99 0.2 h

/-- Witness for claim C10: a contract whose quoted price is its own model
price at volatility 0.2. -/
theorem impliedVolatility_keeps_initial_guess_witness :
    |BlackScholesOptionPrice { oTest with Price := BlackScholesOptionPrice oTest 0.2 } 0.2
        - ({ oTest with Price := BlackScholesOptionPrice oTest 0.2 } : Option).Price| < 0.0001 ∧
      BlackScholesImpliedVolatility
        { oTest with Price := BlackScholesOptionPrice oTest 0.2 } = 0.2 := by
  have h : |BlackScholesOptionPrice { oTest with Price := BlackScholesOptionPrice oTest 0.2 } 0.2
      - ({ oTest with Price := BlackScholesOptionPrice oTest 0.2 } : Option).Price| < 0.0001 := by
    rw [show BlackScholesOptionPrice { oTest with Price := BlackScholesOptionPrice oTest 0.2 } 0.2
        = ({ oTest with Price := BlackScholesOptionPrice oTest 0.2 } : Option).Price from rfl,
      sub_self, abs_zero]
    norm_num
  exact ⟨h, impliedVolatility_keeps_initial_guess _ h⟩

end Finance
